import Mathlib

/-!
Verification of the divik feature-selection and core utilities.

The embedding models, from the Python sources:
  - src/divik/_feature_selection/_specialized.py
      (HighAbundanceAndVarianceSelector.fit and its mask combination),
  - src/divik/_feature_selection/_stat_selector_mixin.py
      (StatSelectorMixin._to_characteristics, _to_raw, _get_support_mask),
  - src/divik/core.py
      (get_n_jobs, DummyPool, maybe_pool, seed, seeded).

Matrices are lists of rows of rationals.  The GMMSelector class itself is not
among the sources, so its fit is treated as an abstract function producing a
boolean mask, and the properties the spec states about it (mask length,
minimum-feature enforcement) appear as explicitly marked spec-modelled
definitions or hypotheses.
-/

namespace Divik

/-- A 2-D numeric table: a list of rows of rationals. -/
abbrev Mat := List (List ℚ)

/-- Column count of a matrix, X.shape[1] for a rectangular non-empty array. -/
def ncols (X : Mat) : ℕ := (X.headD []).length

/-- Keep the entries of a row at positions where the mask is True.
Embeds the per-row effect of numpy column indexing with a boolean mask. -/
def applyMask (mask : List Bool) (row : List ℚ) : List ℚ :=
  ((mask.zip row).filter (fun p => p.1)).map (fun p => p.2)

/-- Embeds X[:, mask], the transform of a fitted selector. -/
def filterCols (mask : List Bool) (X : Mat) : Mat := X.map (applyMask mask)

/-- Number of True entries of a boolean mask. -/
def countTrue (l : List Bool) : ℕ := l.count true

/-- Embeds the numpy in-place boolean-mask assignment m[m] = v from
HighAbundanceAndVarianceSelector.fit: positions of m holding True receive the
values of v in order, positions holding False keep False.  Numpy requires
v to have exactly one value per True entry of m; the case of a too-short v
(which numpy rejects at runtime) keeps the old value and is only ever used
here under the matching-length hypothesis. -/
def scatterMask : List Bool → List Bool → List Bool
  | [], _ => []
  | false :: ms, v => false :: scatterMask ms v
  | true :: ms, [] => true :: scatterMask ms []
  | true :: ms, b :: vs => b :: scatterMask ms vs

/-- The statistic choice of StatSelectorMixin: per-column mean or variance. -/
inductive Stat
  | mean
  | var
  deriving DecidableEq

/-- The constructor arguments of a GMMSelector as produced at the two call
sites inside HighAbundanceAndVarianceSelector.fit. -/
structure GMMArgs where
  stat : Stat
  use_log : Bool
  n_candidates : Option ℕ
  min_features : ℚ
  preserve_high : Bool
  max_components : ℕ
  deriving DecidableEq

/-- Constructor arguments of HighAbundanceAndVarianceSelector, with the
defaults of its init. -/
structure HAVConfig where
  use_log : Bool := false
  min_features : ℕ := 1
  min_features_rate : ℚ := 0
  max_components : ℕ := 10

/-- The fitted state of HighAbundanceAndVarianceSelector: the arguments each
GMMSelector stage was built with, the mask each stage learned, and the
combined mask stored in the selected field. -/
structure HAVFitted where
  abundance_args : GMMArgs
  variance_args : GMMArgs
  abundance_selected : List Bool
  variance_selected : List Bool
  selected : List Bool

/-- Embeds HighAbundanceAndVarianceSelector.fit.  The fit of GMMSelector is
not among the sources, so it is passed in as an abstract function gmmFit from
constructor arguments and input matrix to the learned mask.  Follows the
source line by line: min_features is computed once as
max(self.min_features, self.min_features_rate * X.shape[1]); the abundance
stage is built on the mean statistic with n_candidates=1 and fit on X; the
variance stage is built on the variance statistic with n_candidates=None and
fit on the abundance-filtered matrix; the final mask is the in-place
scatter self.selected_[self.selected_] = variance mask. -/
def havFit (cfg : HAVConfig) (gmmFit : GMMArgs → Mat → List Bool) (X : Mat) :
    HAVFitted :=
  let min_features : ℚ :=
    max (cfg.min_features : ℚ) (cfg.min_features_rate * (ncols X : ℚ))
  let aArgs : GMMArgs :=
    ⟨Stat.mean, cfg.use_log, some 1, min_features, true, cfg.max_components⟩
  let aSel := gmmFit aArgs X
  let vArgs : GMMArgs :=
    ⟨Stat.var, cfg.use_log, none, min_features, true, cfg.max_components⟩
  let vSel := gmmFit vArgs (filterCols aSel X)
  ⟨aArgs, vArgs, aSel, vSel, scatterMask aSel vSel⟩

/-- Modelled from the spec: the file defining GMMSelector
(_gmm_selector.py) is not among the sources.  Spec 4.2 step 5 states the
minimum retained feature count a GMMSelector enforces: min_features, or
min_features_rate times the number of input features, whichever is larger,
rounded up.  Inside HighAbundanceAndVarianceSelector.fit each GMMSelector is
constructed without a min_features_rate, so its rate keeps the default 0. -/
def gmmEnforcedMin (min_features min_features_rate : ℚ) (n_features : ℕ) : ℕ :=
  Nat.ceil (max min_features (min_features_rate * (n_features : ℚ)))

/-- The attributes StatSelectorMixin reads in _to_characteristics and
_to_raw. -/
structure StatConfig where
  stat : Stat
  use_log : Bool
  preserve_high : Bool

/-- Mean of a list of rationals, np.mean of one column. -/
def listMean (l : List ℚ) : ℚ := l.sum / (l.length : ℚ)

/-- Population variance of a list of rationals, np.var of one column. -/
def listVar (l : List ℚ) : ℚ :=
  ((l.map (fun x => (x - listMean l) ^ 2)).sum) / (l.length : ℚ)

/-- The columns of a rectangular matrix, so that a per-column numpy
reduction over axis 0 is a map over them. -/
def columns : Mat → List (List ℚ)
  | [] => []
  | [r] => r.map (fun x => [x])
  | r :: rs => List.zipWith List.cons r (columns rs)

/-- Per-column statistic: np.mean(X, axis=0) or np.var(X, axis=0). -/
def colStats : Stat → Mat → List ℚ
  | Stat.mean, X => (columns X).map listMean
  | Stat.var, X => (columns X).map listVar

/-- The message of the ValueError raised by _to_characteristics. -/
def logDomainMsg : String :=
  "Feature characteristic cannot be negative with log filtering"

/-- Embeds StatSelectorMixin._to_characteristics: compute the per-column
statistic; when use_log is set, raise ValueError when any value is negative
and otherwise take the natural log of every value; when preserve_high is not
set, negate the vector. -/
noncomputable def toCharacteristics (cfg : StatConfig) (X : Mat) :
    Except String (List ℝ) :=
  let vals := colStats cfg.stat X
  if cfg.use_log then
    if vals.any (fun v => decide (v < 0)) then Except.error logDomainMsg
    else
      let logged := vals.map (fun v => Real.log (v : ℝ))
      Except.ok (if cfg.preserve_high then logged else logged.map (fun v => -v))
  else
    let raw : List ℝ := vals.map (fun v => (v : ℝ))
    Except.ok (if cfg.preserve_high then raw else raw.map (fun v => -v))

/-- Embeds StatSelectorMixin._to_raw: negate the threshold when
preserve_high is off, then exponentiate when use_log is on. -/
noncomputable def to_raw (use_log preserve_high : Bool) (threshold : ℝ) : ℝ :=
  let t1 := if preserve_high then threshold else -threshold
  if use_log then Real.exp t1 else t1

/-- The forward transform of a single threshold value into characteristic
space, as the spec words it: natural log when use_log is on, then negation
when preserve_high is off.  It mirrors what _to_characteristics does to each
per-column value. -/
noncomputable def toCharacteristicSpace (use_log preserve_high : Bool)
    (t : ℝ) : ℝ :=
  let t1 := if use_log then Real.log t else t
  if preserve_high then t1 else -t1

/-- Embeds get_n_jobs from core.py.  The cpu count is a parameter standing
for os.cpu_count(), an Option because that call may return None; the Python
expression os.cpu_count() or 1 also turns a falsy 0 into 1. -/
def get_n_jobs (n_cpu : Option ℕ) (n_jobs : Option ℤ) : ℤ :=
  let ncpu : ℤ :=
    match n_cpu with
    | none => 1
    | some 0 => 1
    | some c => (c : ℤ)
  let nj1 : ℤ := n_jobs.getD 1
  let nj2 : ℤ := if nj1 ≤ 0 then min (nj1 + 1 + ncpu) ncpu else nj1
  if nj2 = 0 then ncpu else nj2

/-- Which kind of pool maybe_pool yields. -/
inductive PoolKind
  | dummy
  | real
  deriving DecidableEq

/-- Embeds the branch of maybe_pool: a DummyPool when the resolved job count
is 1 or 0, a multiprocessing Pool otherwise. -/
def maybe_pool_kind (n_cpu : Option ℕ) (processes : Option ℤ) : PoolKind :=
  let n := get_n_jobs n_cpu processes
  if n = 1 ∨ n = 0 then PoolKind.dummy else PoolKind.real

/-- Embeds DummyPool.map, the list comprehension building results one by one
from head to tail. -/
def dummy_pool_map {α β : Type} (func : α → β) (iterable : List α) : List β :=
  iterable.foldl (fun acc v => acc ++ [func v]) []

/-- Embeds DummyPool.starmap, applying func to each tuple of the iterable
from head to tail. -/
def dummy_pool_starmap {α β γ : Type} (func : α → β → γ)
    (iterable : List (α × β)) : List γ :=
  iterable.foldl (fun acc v => acc ++ [func v.1 v.2]) []

/-- Embeds DummyPool.apply, a plain in-process call func(args, kwds). -/
def dummy_pool_apply {α β γ : Type} (func : α → β → γ) (args : α) (kwds : β) :
    γ :=
  func args kwds

/-- The global numpy random-generator state, modelled as an integer. -/
abbrev RngState := ℤ

/-- The state np.random.seed(s) installs: a deterministic function of the
seed alone. -/
def npRandomSeed (seed_ : ℤ) : RngState := seed_

/-- Embeds the contextmanager seed from core.py, run on a body that threads
the global random state and may raise.  Exactly as in the source: save the
state, install the seeded state, run the body, and restore the saved state
after the yield.  There is no try/finally in the source, so when the body
raises, the line after the yield never runs and the state is left as the body
left it. -/
def seedScope {E α : Type} (seed_ : ℤ)
    (body : RngState → Except E α × RngState) (s0 : RngState) :
    Except E α × RngState :=
  let state := s0
  match body (npRandomSeed seed_) with
  | (Except.ok a, _) => (Except.ok a, state)
  | (Except.error e, s2) => (Except.error e, s2)

/-- Keyword arguments of a Python call, an association list with at most one
entry per key. -/
abbrev Kwargs := List (String × ℤ)

/-- Embeds dict.pop(kwargs, key, default) restricted to its effect on the
dictionary: the entry of the key is removed.  On the duplicate-free lists
that model dictionaries, dropping every matching entry is that removal. -/
def kwPop (key : String) (kwargs : Kwargs) : Kwargs :=
  kwargs.filter (fun p => p.1 != key)

/-- The seed value the seeded decorator reads: the seed keyword when
present, else 0.  Both dict.get and dict.pop return this value. -/
def seededSeed (kwargs : Kwargs) : ℤ := (kwargs.lookup "seed").getD 0

/-- The keyword arguments the wrapped function receives: unchanged when
wrapped_requires_seed (dict.get), with the seed entry removed otherwise
(dict.pop). -/
def seededPassed (wrapped_requires_seed : Bool) (kwargs : Kwargs) : Kwargs :=
  if wrapped_requires_seed then kwargs else kwPop "seed" kwargs

/-- Embeds a call of a function wrapped by the seeded decorator: read the
seed keyword with default 0, remove it from kwargs unless
wrapped_requires_seed, and run the function inside the seed scope. -/
def seededRun {α : Type} (wrapped_requires_seed : Bool)
    (func : Kwargs → RngState → Except String α × RngState)
    (kwargs : Kwargs) (s0 : RngState) : Except String α × RngState :=
  seedScope (seededSeed kwargs) (func (seededPassed wrapped_requires_seed kwargs)) s0

/-- Abstract GMM fit used in witnesses: a mask fixed by the stage. -/
def exGmm : GMMArgs → Mat → List Bool := fun args _ =>
  if args.n_candidates = some 1 then [true, false, true] else [false, true]

/-- Abstract GMM fit used in witnesses: keep every input column. -/
def allTrueGmm : GMMArgs → Mat → List Bool := fun _ M =>
  List.replicate (ncols M) true

/-- Abstract GMM fit used in the C2 counterexample: the abundance stage
keeps 4 of 10 columns, the variance stage keeps everything. -/
def tenColGmm : GMMArgs → Mat → List Bool := fun args M =>
  if args.stat = Stat.mean then
    [true, true, true, true, false, false, false, false, false, false]
  else List.replicate (ncols M) true

theorem scatterMask_length (m v : List Bool) :
    (scatterMask m v).length = m.length := by
  induction m generalizing v with
  | nil => rfl
  | cons b ms ih =>
    cases b with
    | false => simp [scatterMask, ih]
    | true =>
      cases v with
      | nil => simp [scatterMask, ih]
      | cons c vs => simp [scatterMask, ih]

theorem countTrue_nil : countTrue [] = 0 := rfl

theorem countTrue_cons (b : Bool) (l : List Bool) :
    countTrue (b :: l) = countTrue l + (if b then 1 else 0) := by
  cases b <;> simp [countTrue, List.count_cons]

theorem scatterMask_getD (m : List Bool) :
    ∀ (v : List Bool) (i : ℕ), v.length = countTrue m → i < m.length →
      (scatterMask m v).getD i false =
        (m.getD i false && v.getD (countTrue (m.take i)) false) := by
  induction m with
  | nil => intro v i _ hi; simp at hi
  | cons b ms ih =>
    intro v i hv hi
    cases b with
    | false =>
      cases i with
      | zero => simp [scatterMask]
      | succ j =>
        have hv2 : v.length = countTrue ms := by
          simpa [countTrue_cons] using hv
        have hj : j < ms.length := by simpa using hi
        simpa [scatterMask, countTrue_cons, countTrue_nil] using ih v j hv2 hj
    | true =>
      cases v with
      | nil => simp [countTrue_cons] at hv
      | cons c vs =>
        cases i with
        | zero => simp [scatterMask, countTrue_nil]
        | succ j =>
          have hv2 : vs.length = countTrue ms := by
            simp [countTrue_cons] at hv
            exact hv
          have hj : j < ms.length := by simpa using hi
          simpa [scatterMask, countTrue_cons, countTrue_nil] using ih vs j hv2 hj

theorem scatterMask_countTrue (m : List Bool) :
    ∀ v : List Bool, v.length = countTrue m →
      countTrue (scatterMask m v) = countTrue v := by
  induction m with
  | nil =>
    intro v hv
    have hnil : v = [] := List.eq_nil_of_length_eq_zero (by simpa [countTrue_nil] using hv)
    simp [hnil, scatterMask]
  | cons b ms ih =>
    intro v hv
    cases b with
    | false =>
      have hv2 : v.length = countTrue ms := by
        simpa [countTrue_cons] using hv
      simpa [scatterMask, countTrue_cons] using ih v hv2
    | true =>
      cases v with
      | nil => simp [countTrue_cons] at hv
      | cons c vs =>
        have hv2 : vs.length = countTrue ms := by
          simp [countTrue_cons] at hv
          exact hv
        simp [scatterMask, countTrue_cons, ih vs hv2]

theorem foldl_append_singleton {α β : Type} (f : α → β) :
    ∀ (xs : List α) (acc : List β),
      xs.foldl (fun a v => a ++ [f v]) acc = acc ++ xs.map f := by
  intro xs
  induction xs with
  | nil => intro acc; simp
  | cons x xs ih => intro acc; simp [ih]

theorem lookup_kwPop (key : String) (kwargs : Kwargs) :
    (kwPop key kwargs).lookup key = none := by
  induction kwargs with
  | nil => rfl
  | cons p ps ih =>
    obtain ⟨k, v⟩ := p
    simp only [kwPop] at ih ⊢
    by_cases h : k = key
    · simpa [List.filter_cons, h] using ih
    · have hbeq : (key == k) = false := by
        simp [Ne.symm h]
      have hkeep : (k != key) = true := by
        simp [h]
      simp only [List.filter_cons, hkeep, if_true]
      simp only [List.lookup, hbeq]
      exact ih

/-- Claim C1: for every matrix on which HighAbundanceAndVarianceSelector.fit
succeeds, the combined selected mask is True at column i exactly when the
abundance mask is True at i and the variance mask is True at the position of
i among the abundance-surviving columns, and the number of selected columns
equals the number the variance stage selected. -/
theorem C1_combined_mask_scatter (cfg : HAVConfig)
    (gmmFit : GMMArgs → Mat → List Bool) (X : Mat)
    (hv : (havFit cfg gmmFit X).variance_selected.length
            = countTrue (havFit cfg gmmFit X).abundance_selected) :
    (∀ i, i < (havFit cfg gmmFit X).selected.length →
        (havFit cfg gmmFit X).selected.getD i false
          = ((havFit cfg gmmFit X).abundance_selected.getD i false
              && (havFit cfg gmmFit X).variance_selected.getD
                   (countTrue ((havFit cfg gmmFit X).abundance_selected.take i))
                   false))
    ∧ countTrue (havFit cfg gmmFit X).selected
        = countTrue (havFit cfg gmmFit X).variance_selected := by
  constructor
  · intro i hi
    have hi2 : i < (havFit cfg gmmFit X).abundance_selected.length := by
      have hl := scatterMask_length (havFit cfg gmmFit X).abundance_selected
        (havFit cfg gmmFit X).variance_selected
      exact hl ▸ hi
    exact scatterMask_getD (havFit cfg gmmFit X).abundance_selected
      (havFit cfg gmmFit X).variance_selected i hv hi2
  · exact scatterMask_countTrue (havFit cfg gmmFit X).abundance_selected
      (havFit cfg gmmFit X).variance_selected hv

/-- Witness for C1 at a concrete 1-row, 3-column matrix with an abundance
mask keeping columns 0 and 2 and a variance mask keeping only the second
survivor. -/
theorem C1_combined_mask_scatter_witness :
    ((havFit ⟨false, 1, 0, 10⟩ exGmm [[1, 2, 3]]).variance_selected.length
        = countTrue ((havFit ⟨false, 1, 0, 10⟩ exGmm [[1, 2, 3]]).abundance_selected))
    ∧ ((∀ i, i < (havFit ⟨false, 1, 0, 10⟩ exGmm [[1, 2, 3]]).selected.length →
          (havFit ⟨false, 1, 0, 10⟩ exGmm [[1, 2, 3]]).selected.getD i false
            = ((havFit ⟨false, 1, 0, 10⟩ exGmm [[1, 2, 3]]).abundance_selected.getD i false
                && (havFit ⟨false, 1, 0, 10⟩ exGmm [[1, 2, 3]]).variance_selected.getD
                     (countTrue ((havFit ⟨false, 1, 0, 10⟩ exGmm [[1, 2, 3]]).abundance_selected.take i))
                     false))
        ∧ countTrue (havFit ⟨false, 1, 0, 10⟩ exGmm [[1, 2, 3]]).selected
            = countTrue (havFit ⟨false, 1, 0, 10⟩ exGmm [[1, 2, 3]]).variance_selected) :=
  ⟨by decide, C1_combined_mask_scatter ⟨false, 1, 0, 10⟩ exGmm [[1, 2, 3]] (by decide)⟩

/-- Claim C7: every GMMSelector mask has one entry per column of its own
input (the spec-modelled invariant hg), and the combined selected mask of
HighAbundanceAndVarianceSelector has one entry per column of X even though
the variance stage is fit on the narrower abundance-filtered matrix. -/
theorem C7_mask_length (cfg : HAVConfig)
    (gmmFit : GMMArgs → Mat → List Bool) (X : Mat)
    (hg : ∀ args M, (gmmFit args M).length = ncols M) :
    (havFit cfg gmmFit X).abundance_selected.length = ncols X
    ∧ (havFit cfg gmmFit X).variance_selected.length
        = ncols (filterCols (havFit cfg gmmFit X).abundance_selected X)
    ∧ (havFit cfg gmmFit X).selected.length = ncols X := by
  refine ⟨hg _ _, hg _ _, ?_⟩
  exact (scatterMask_length (havFit cfg gmmFit X).abundance_selected
    (havFit cfg gmmFit X).variance_selected).trans (hg _ _)

/-- Witness for C7 at a concrete 1-row, 2-column matrix, with a GMM fit that
keeps every column of its own input. -/
theorem C7_mask_length_witness :
    (∀ args M, (allTrueGmm args M).length = ncols M)
    ∧ ((havFit ⟨false, 1, 0, 10⟩ allTrueGmm [[1, 2]]).abundance_selected.length
          = ncols [[1, 2]]
       ∧ (havFit ⟨false, 1, 0, 10⟩ allTrueGmm [[1, 2]]).variance_selected.length
          = ncols (filterCols
              ((havFit ⟨false, 1, 0, 10⟩ allTrueGmm [[1, 2]]).abundance_selected)
              [[1, 2]])
       ∧ (havFit ⟨false, 1, 0, 10⟩ allTrueGmm [[1, 2]]).selected.length
          = ncols [[1, 2]]) :=
  ⟨fun args M => by simp [allTrueGmm],
   C7_mask_length ⟨false, 1, 0, 10⟩ allTrueGmm [[1, 2]]
     (fun args M => by simp [allTrueGmm])⟩

/-- Claim C9: fit builds the abundance GMMSelector on the mean statistic
with preserve_high and n_candidates fixed to 1, fits it on X, builds the
variance GMMSelector on the variance statistic with n_candidates fixed to
None, fits it on the abundance-filtered matrix, and both stages receive the
use_log and max_components of the outer selector; the combined mask scatters
the variance mask into the abundance mask. -/
theorem C9_stage_wiring (cfg : HAVConfig)
    (gmmFit : GMMArgs → Mat → List Bool) (X : Mat) :
    (havFit cfg gmmFit X).abundance_args
        = ⟨Stat.mean, cfg.use_log, some 1,
           max (cfg.min_features : ℚ) (cfg.min_features_rate * (ncols X : ℚ)),
           true, cfg.max_components⟩
    ∧ (havFit cfg gmmFit X).variance_args
        = ⟨Stat.var, cfg.use_log, none,
           max (cfg.min_features : ℚ) (cfg.min_features_rate * (ncols X : ℚ)),
           true, cfg.max_components⟩
    ∧ (havFit cfg gmmFit X).abundance_selected
        = gmmFit (havFit cfg gmmFit X).abundance_args X
    ∧ (havFit cfg gmmFit X).variance_selected
        = gmmFit (havFit cfg gmmFit X).variance_args
            (filterCols (havFit cfg gmmFit X).abundance_selected X)
    ∧ (havFit cfg gmmFit X).selected
        = scatterMask (havFit cfg gmmFit X).abundance_selected
            (havFit cfg gmmFit X).variance_selected :=
  ⟨rfl, rfl, rfl, rfl, rfl⟩

/-- Claim C5, evaluated at the failing input: running the seed scope with
seed 0 from global state 5 around a body that raises leaves the global state
at the freshly seeded state instead of restoring the saved state 5, because
the restore after the yield is skipped when the body raises; on a normal
exit the saved state 5 is restored. -/
theorem C5_seed_scope_not_restored_on_exception :
    (seedScope 0 (fun s => ((Except.error "failure" : Except String Unit), s)) 5).2
        = npRandomSeed 0
    ∧ npRandomSeed 0 ≠ (5 : RngState)
    ∧ (seedScope 0 (fun s => ((Except.ok () : Except String Unit), s)) 5).2 = 5 := by
  refine ⟨rfl, ?_, rfl⟩
  decide

/-- Claim C6: whenever the resolved job count is 1 or 0, maybe_pool yields
the dummy pool, and the dummy pool runs map, starmap and apply strictly
sequentially in-process, returning exactly the results of sequential
application. -/
theorem C6_dummy_pool_sequential (n_cpu : Option ℕ) (processes : Option ℤ)
    {α β γ δ : Type} (f : α → β) (xs : List α) (g : γ → δ → β)
    (ps : List (γ × δ)) (a : γ) (k : δ)
    (h : get_n_jobs n_cpu processes = 1 ∨ get_n_jobs n_cpu processes = 0) :
    maybe_pool_kind n_cpu processes = PoolKind.dummy
    ∧ dummy_pool_map f xs = xs.map f
    ∧ dummy_pool_starmap g ps = ps.map (fun p => g p.1 p.2)
    ∧ dummy_pool_apply g a k = g a k := by
  refine ⟨?_, ?_, ?_, rfl⟩
  · rcases h with h | h <;> simp [maybe_pool_kind, h]
  · simpa using foldl_append_singleton f xs []
  · simpa using foldl_append_singleton (fun p => g p.1 p.2) ps []

/-- Witness for C6 with 4 cpus, a request of 1 process and concrete
functions and inputs over the naturals. -/
theorem C6_dummy_pool_sequential_witness :
    (get_n_jobs (some 4) (some 1) = 1 ∨ get_n_jobs (some 4) (some 1) = 0)
    ∧ (maybe_pool_kind (some 4) (some 1) = PoolKind.dummy
       ∧ dummy_pool_map (fun n => n + 1) [1, 2, 3] = [1, 2, 3].map (fun n => n + 1)
       ∧ dummy_pool_starmap (fun m n => m * n) [(1, 2), (3, 4)]
           = [(1, 2), (3, 4)].map (fun p => p.1 * p.2)
       ∧ dummy_pool_apply (fun m n => m * n) 2 3 = 2 * 3) :=
  ⟨Or.inl (by decide),
   C6_dummy_pool_sequential (some 4) (some 1) (fun n => n + 1) [1, 2, 3]
     (fun m n => m * n) [(1, 2), (3, 4)] 2 3 (Or.inl (by decide))⟩

/-- Claim C8: a function wrapped by the seeded decorator is reproducible:
two runs with identical keyword arguments, started from any two ambient
global random states, observe the same seeded random stream and return the
same value. -/
theorem C8_seeded_reproducible {α : Type} (wrapped_requires_seed : Bool)
    (func : Kwargs → RngState → Except String α × RngState)
    (kwargs : Kwargs) (s0 s1 : RngState) :
    (seededRun wrapped_requires_seed func kwargs s0).1
      = (seededRun wrapped_requires_seed func kwargs s1).1 := by
  rcases hf : func (seededPassed wrapped_requires_seed kwargs)
      (npRandomSeed (seededSeed kwargs)) with ⟨r, s2⟩
  cases r <;> simp [seededRun, seedScope, hf]

/-- Claim C10: the seeded decorator runs the wrapped function inside a seed
scope whose seed is the seed keyword with default 0; with
wrapped_requires_seed off (the default) the seed keyword is removed from the
kwargs the function receives, so a lookup of seed there always fails; with
wrapped_requires_seed on the kwargs are forwarded unchanged. -/
theorem C10_seed_kwarg_plumbing {α : Type} (wrapped_requires_seed : Bool)
    (func : Kwargs → RngState → Except String α × RngState)
    (kwargs : Kwargs) (s0 : RngState) :
    seededRun wrapped_requires_seed func kwargs s0
        = seedScope ((kwargs.lookup "seed").getD 0)
            (func (seededPassed wrapped_requires_seed kwargs)) s0
    ∧ (seededPassed false kwargs).lookup "seed" = none
    ∧ seededPassed true kwargs = kwargs :=
  ⟨rfl, lookup_kwPop "seed" kwargs, rfl⟩

theorem gmmEnforcedMin_passed (m : ℕ) (r : ℚ) (n w : ℕ) :
    gmmEnforcedMin (max (m : ℚ) (r * (n : ℚ))) 0 w
      = max m (Nat.ceil (r * (n : ℚ))) := by
  have hmax : (Nat.ceil : ℚ → ℕ) (max (m : ℚ) (r * (n : ℚ)))
      = max (Nat.ceil ((m : ℚ))) (Nat.ceil (r * (n : ℚ))) :=
    Nat.ceil_mono.map_max
  unfold gmmEnforcedMin
  rw [zero_mul, max_eq_left (le_max_of_le_left (Nat.cast_nonneg m)), hmax,
    Nat.ceil_natCast]

/-- Counterexample to claim C2: with min_features 1, min_features_rate 1/2,
a 10-column input and an abundance stage keeping 4 columns, the variance
stage receives the minimum computed once from the width of X, so it enforces
5 retained features, while the claim says it enforces
max(1, ceil(1/2 * 4)) = 2 computed from its own 4-column input. -/
theorem C2_min_features_counterexample :
    (havFit ⟨false, 1, 1/2, 10⟩ tenColGmm [List.replicate 10 0]).variance_args.min_features
        = max ((1 : ℕ) : ℚ) ((1/2 : ℚ) * ((10 : ℕ) : ℚ))
    ∧ ncols (filterCols
        ((havFit ⟨false, 1, 1/2, 10⟩ tenColGmm [List.replicate 10 0]).abundance_selected)
        [List.replicate 10 0]) = 4
    ∧ gmmEnforcedMin
        (havFit ⟨false, 1, 1/2, 10⟩ tenColGmm [List.replicate 10 0]).variance_args.min_features
        0 4 = 5
    ∧ max (1 : ℕ) (Nat.ceil ((1/2 : ℚ) * ((4 : ℕ) : ℚ))) = 2
    ∧ (5 : ℕ) ≠ 2 := by
  have hmf : (havFit ⟨false, 1, 1/2, 10⟩ tenColGmm [List.replicate 10 0]).variance_args.min_features
      = max ((1 : ℕ) : ℚ) ((1/2 : ℚ) * ((10 : ℕ) : ℚ)) := by
    norm_num [havFit, ncols]
  refine ⟨hmf, by decide, ?_, by norm_num, by decide⟩
  rw [hmf, gmmEnforcedMin_passed]
  norm_num

/-- Claim C2 as amended: the minimum retained feature count enforced in each
of the two GMMSelector stages equals max(min_features,
ceil(min_features_rate * w)) where w is the column count of X for BOTH
stages: the value is computed once from the width of the original input and
passed unchanged to the variance stage, not recomputed from the
abundance-filtered width. -/
theorem C2_min_features_amended (cfg : HAVConfig)
    (gmmFit : GMMArgs → Mat → List Bool) (X : Mat) :
    gmmEnforcedMin (havFit cfg gmmFit X).abundance_args.min_features 0 (ncols X)
        = max cfg.min_features (Nat.ceil (cfg.min_features_rate * (ncols X : ℚ)))
    ∧ gmmEnforcedMin (havFit cfg gmmFit X).variance_args.min_features 0
          (ncols (filterCols (havFit cfg gmmFit X).abundance_selected X))
        = max cfg.min_features (Nat.ceil (cfg.min_features_rate * (ncols X : ℚ))) :=
  ⟨gmmEnforcedMin_passed cfg.min_features cfg.min_features_rate (ncols X) (ncols X),
   gmmEnforcedMin_passed cfg.min_features cfg.min_features_rate (ncols X)
     (ncols (filterCols (havFit cfg gmmFit X).abundance_selected X))⟩

/-- Counterexample to claim C3: a single column whose mean is 0 is NOT
rejected by _to_characteristics under use_log; the guard only checks for
strictly negative values, so the call returns the log of 0 instead of
raising the Domain error the claim requires for non-positive values. -/
theorem C3_zero_characteristic_not_rejected :
    colStats Stat.mean [[0]] = [0]
    ∧ toCharacteristics ⟨Stat.mean, true, true⟩ [[0]]
        = Except.ok [Real.log ((0 : ℚ) : ℝ)] := by
  have h1 : colStats Stat.mean [[0]] = [0] := by
    norm_num [colStats, columns, listMean]
  refine ⟨h1, ?_⟩
  simp only [toCharacteristics, h1]
  norm_num

/-- Claim C3 as amended: under use_log, _to_characteristics fails with the
Domain error exactly when some per-column characteristic value is strictly
negative; a zero value is not rejected (its log is taken).  When every value
is nonnegative the call succeeds and returns the natural logarithm of each
value, negated when preserve_high is off. -/
theorem C3_log_rejects_negative_only (cfg : StatConfig) (X : Mat)
    (hlog : cfg.use_log = true) :
    ((∃ v ∈ colStats cfg.stat X, v < 0) →
        toCharacteristics cfg X = Except.error logDomainMsg)
    ∧ ((∀ v ∈ colStats cfg.stat X, 0 ≤ v) →
        toCharacteristics cfg X
          = Except.ok ((colStats cfg.stat X).map
              (fun v => if cfg.preserve_high then Real.log (v : ℝ)
                        else -Real.log (v : ℝ)))) := by
  constructor
  · intro hneg
    have hany : (colStats cfg.stat X).any (fun v => decide (v < 0)) = true := by
      rcases hneg with ⟨v, hv, hlt⟩
      exact List.any_eq_true.mpr ⟨v, hv, by simpa using hlt⟩
    simp [toCharacteristics, hlog, hany]
  · intro hpos
    have hany : (colStats cfg.stat X).any (fun v => decide (v < 0)) = false := by
      rw [List.any_eq_false]
      intro v hv
      simpa using not_lt.mpr (hpos v hv)
    cases hph : cfg.preserve_high <;>
      simp [toCharacteristics, hlog, hany, hph, List.map_map, Function.comp]

/-- Witness for C3 as amended, at a one-column matrix with mean 1. -/
theorem C3_log_rejects_negative_only_witness :
    ((⟨Stat.mean, true, true⟩ : StatConfig).use_log = true)
    ∧ (((∃ v ∈ colStats Stat.mean [[1]], v < 0) →
          toCharacteristics ⟨Stat.mean, true, true⟩ [[1]]
            = Except.error logDomainMsg)
       ∧ ((∀ v ∈ colStats Stat.mean [[1]], 0 ≤ v) →
          toCharacteristics ⟨Stat.mean, true, true⟩ [[1]]
            = Except.ok ((colStats Stat.mean [[1]]).map
                (fun v => if (⟨Stat.mean, true, true⟩ : StatConfig).preserve_high
                          then Real.log (v : ℝ) else -Real.log (v : ℝ))))) :=
  ⟨rfl, C3_log_rejects_negative_only ⟨Stat.mean, true, true⟩ [[1]] rfl⟩

/-- Claim C4: for every threshold (positive whenever use_log is on) and
every combination of use_log and preserve_high, _to_raw inverts the forward
characteristic transform exactly: it undoes the sign flip first, then undoes
the log. -/
theorem C4_threshold_roundtrip (use_log preserve_high : Bool) (t : ℝ)
    (h : use_log = true → 0 < t) :
    to_raw use_log preserve_high (toCharacteristicSpace use_log preserve_high t)
      = t := by
  cases use_log with
  | false =>
    cases preserve_high <;> simp [to_raw, toCharacteristicSpace]
  | true =>
    cases preserve_high <;>
      simp [to_raw, toCharacteristicSpace, Real.exp_log (h rfl)]

/-- Witness for C4 at threshold 1 with use_log on and preserve_high off. -/
theorem C4_threshold_roundtrip_witness :
    ((true = true → (0 : ℝ) < 1)
      ∧ to_raw true false (toCharacteristicSpace true false 1) = 1) :=
  ⟨fun _ => one_pos, C4_threshold_roundtrip true false 1 (fun _ => one_pos)⟩
